import Mathlib

/-!
Shallow embedding of the Medium Go SDK (Medium/medium-sdk-go) for checking its
natural-language specification.

The embedding translates the package's own code:
* `medium.go` — the current client: data shapes, constructors, the payload
  encoders (`generateJSONRequestData`, `generateFormRequestData`,
  `generateFileRequestData`), the pipeline `request`, the token routine
  `acquireAccessToken`, and the per-endpoint operation methods;
* the historical variant files (the unnamed parts of the repository):
  `parseResponse` (part_001, whose logic `medium.go` inlines at the tail of
  `request`) and the legacy `acquireAccessToken` (part_002).

Go strings are modelled as Lean `String`s; where the standard library works
byte-wise (URL query escaping), bytes are modelled as `Nat`s and Lean
characters are tied to bytes via `Char.toNat`, which is exact for ASCII
inputs.  Effects are made explicit: the network, the filesystem and the
random multipart boundary are oracle parameters, and the index-out-of-range
panic of `env.Errors[0]` is modelled by an `Option` layer (`none` = panic).
-/

set_option maxRecDepth 16384

namespace MediumGo

/-! ## JSON values

Models the parsed form of a JSON document, the common currency of
`encoding/json` marshalling and unmarshalling.  Numbers are modelled as
integers (the only numeric field in the package, `code int` /
`expires_at int64`, is integral). -/

inductive Json where
  | null : Json
  | bool (b : Bool) : Json
  | num (n : Int) : Json
  | str (s : String) : Json
  | arr (elems : List Json) : Json
  | obj (fields : List (String × Json)) : Json

/-- `true` iff the value is JSON `null`; models a Go `interface{}` holding
`nil` after unmarshalling (both an absent field and an explicit `null`). -/
def Json.isNull : Json → Bool
  | .null => true
  | _ => false

/-- ASCII lower-casing of one character. -/
def lowerChar (c : Char) : Char :=
  if 65 ≤ c.toNat ∧ c.toNat ≤ 90 then Char.ofNat (c.toNat + 32) else c

/-- ASCII lower-casing of a string (the keys being matched are ASCII). -/
def lowerStr (s : String) : String :=
  String.mk (s.toList.map lowerChar)

/-- Field lookup as `encoding/json` performs it while decoding an object into
a struct: keys are matched case-insensitively (exact matches and fold-case
matches assign to the same struct field) and a later duplicate key overwrites
an earlier one, so the last matching key in document order wins.  `key` is
supplied lower-case. -/
def jsonLookup (fields : List (String × Json)) (key : String) : Option Json :=
  fields.foldl (fun acc kv => if lowerStr kv.1 = key then some kv.2 else acc) none

/-- Fixed stand-in for the message text of an `encoding/json` type-mismatch
error (`json: cannot unmarshal ...`); the package never inspects it. -/
def typeErrMsg : String := "json: cannot unmarshal value"

/-- Decode a string-typed struct field: an absent key or `null` leaves the
zero value `""`; a JSON string assigns it; anything else is a type error. -/
def jsonStringField (fields : List (String × Json)) (key : String) : Except String String :=
  match jsonLookup fields key with
  | none => .ok ""
  | some .null => .ok ""
  | some (.str s) => .ok s
  | some _ => .error typeErrMsg

/-- Decode an integer-typed struct field, with the same conventions. -/
def jsonIntField (fields : List (String × Json)) (key : String) : Except String Int :=
  match jsonLookup fields key with
  | none => .ok 0
  | some .null => .ok 0
  | some (.num n) => .ok n
  | some _ => .error typeErrMsg

/-- Decode a `[]string` struct field: absent or `null` is the `nil` slice. -/
def jsonStringListField (fields : List (String × Json)) (key : String) :
    Except String (List String) :=
  match jsonLookup fields key with
  | none => .ok []
  | some .null => .ok []
  | some (.arr xs) =>
    xs.mapM fun x => match x with
      | .str s => .ok s
      | _ => .error typeErrMsg
  | some _ => .error typeErrMsg

/-! ## Wire shapes: `Error`, `envelope`, `AccessToken` -/

/-- `Error` (medium.go lines 160–163): the single flat error shape
`{message, code}` used for every failure the package reports. -/
structure Error where
  Message : String
  Code : Int
deriving DecidableEq

/-- `defaultCode` (medium.go line 62): fixed sentinel code for all
locally-generated failures. -/
def defaultCode : Int := -1

/-- Unmarshal one element of the `errors` list into `Error`
(`json:"message"`, `json:"code"`). `null` leaves the zero value, a
non-object is a type error, exactly as `encoding/json` behaves on a struct.
(Go records a field type error and keeps decoding, but since `request`
treats any returned error as a parse failure, first-error semantics is
observationally the same.) -/
def errorOfJson : Json → Except String Error
  | .null => .ok ⟨"", 0⟩
  | .obj fields => do
    let msg ← jsonStringField fields "message"
    let code ← jsonIntField fields "code"
    .ok ⟨msg, code⟩
  | _ => .error typeErrMsg

/-- Unmarshal the `errors` field (`[]Error`): `null`/absent is the empty
slice, an array decodes elementwise, anything else is a type error. -/
def errorsOfJson : Json → Except String (List Error)
  | .null => .ok []
  | .arr xs => xs.mapM errorOfJson
  | _ => .error typeErrMsg

/-- `envelope` (medium.go lines 472–475): the wire-level wrapper
`{"data": <any>, "errors": [...]}`.  `Data` is an untyped `interface{}`
(here: a `Json`, with `Json.null` standing for Go `nil`); `Errors` is the
decoded error list. -/
structure Envelope where
  Data : Json
  Errors : List Error

/-- Unmarshal raw JSON into `envelope`, as `json.Unmarshal(c, &env)` does:
a top-level `null` is a no-op leaving the zero value, a non-object is a type
error, and unknown keys are ignored. -/
def envelopeOfJson : Json → Except String Envelope
  | .null => .ok ⟨.null, []⟩
  | .obj fields => do
    let errs ← errorsOfJson ((jsonLookup fields "errors").getD .null)
    .ok ⟨(jsonLookup fields "data").getD .null, errs⟩
  | _ => .error typeErrMsg

/-- `AccessToken` (medium.go lines 97–103). -/
structure AccessToken where
  TokenType : String
  AccessToken : String
  RefreshToken : String
  Scope : List String
  ExpiresAt : Int
deriving DecidableEq

/-- Unmarshal into `AccessToken` (tags `token_type`, `access_token`,
`refresh_token`, `scope`, `expires_at`). -/
def accessTokenOfJson : Json → Except String AccessToken
  | .null => .ok ⟨"", "", "", [], 0⟩
  | .obj fields => do
    let tt ← jsonStringField fields "token_type"
    let at_ ← jsonStringField fields "access_token"
    let rt ← jsonStringField fields "refresh_token"
    let sc ← jsonStringListField fields "scope"
    let ea ← jsonIntField fields "expires_at"
    .ok ⟨tt, at_, rt, sc, ea⟩
  | _ => .error typeErrMsg

/-! ## The response normalizer

`parseResponse` (part_001 lines 171–186); `medium.go` inlines the identical
logic at `request` lines 425–437. -/

/-- The raw bytes of a response body, seen through the JSON parser: either
they fail to parse (with some message), or they parse to a JSON value.
Re-marshalling a parsed value and re-parsing it is the identity on `Json`,
which is how the model renders the `json.Marshal(env.Data)` round trip. -/
inductive RawContent where
  | malformed (msg : String) : RawContent
  | parsed (j : Json) : RawContent

/-- The Go `error` returned by the normalizer: either the package's own
`Error` value, or a plain `encoding/json` decode error returned as-is by
`return json.Unmarshal(content, &result)` (not wrapped in `Error`). -/
inductive GoErr where
  | api (e : Error) : GoErr
  | jsonDecode (msg : String) : GoErr
deriving DecidableEq

/-- `parseResponse(content, code, &result)` — part_001 lines 171–186,
inlined in medium.go at lines 425–437.

The caller-supplied target type is represented by its decoder
`decode : Json → Except String α` (the behaviour of
`json.Unmarshal(content, &result)` for the concrete result type).

* a parse failure of the envelope yields the `ParseError` branch
  (`Could not parse response: ...`, sentinel code);
* for a 2xx status, the source re-marshals `env.Data` when it is non-nil and
  unmarshals it (here: `decode env.Data`), otherwise unmarshals the original
  bytes (here: `decode j`); a failure there is returned as-is;
* otherwise the source evaluates `env.Errors[0]`: `none` models the
  index-out-of-range panic when the error list is empty. -/
def parseResponse {α : Type} (decode : Json → Except String α)
    (content : RawContent) (code : Int) : Option (Except GoErr α) :=
  match content with
  | .malformed msg =>
    some (.error (.api ⟨"Could not parse response: " ++ msg, defaultCode⟩))
  | .parsed j =>
    match envelopeOfJson j with
    | .error msg =>
      some (.error (.api ⟨"Could not parse response: " ++ msg, defaultCode⟩))
    | .ok env =>
      if 200 ≤ code ∧ code < 300 then
        some (match decode (if env.Data.isNull then j else env.Data) with
          | .ok a => .ok a
          | .error msg => .error (.jsonDecode msg))
      else
        match env.Errors with
        | [] => none
        | e :: _ => some (.error (.api ⟨e.Message, e.Code⟩))

/-! ## JSON marshalling

Models `json.Marshal` on the payload values the package passes to it.
`encoding/json` escapes `"`, `\`, newline/carriage-return/tab, other control
characters, and (HTML escaping, on by default) `<`, `>`, `&`. -/

/-- Lower-case hexadecimal digit, as used in `\u00xx` escapes. -/
def hexDigitLower (d : Nat) : Char :=
  if d < 10 then Char.ofNat (48 + d) else Char.ofNat (87 + d)

/-- Escape one character of a JSON string the way `encoding/json` does. -/
def jsonEscapeChar (c : Char) : List Char :=
  if c = '"' then ['\\', '"']
  else if c = '\\' then ['\\', '\\']
  else if c = '\n' then ['\\', 'n']
  else if c = '\r' then ['\\', 'r']
  else if c = '\t' then ['\\', 't']
  else if c = '<' ∨ c = '>' ∨ c = '&' ∨ c.toNat < 32 then
    ['\\', 'u', '0', '0', hexDigitLower (c.toNat / 16), hexDigitLower (c.toNat % 16)]
  else [c]

/-- Render a Go string as a quoted JSON string literal. -/
def jsonQuote (s : String) : String :=
  "\"" ++ String.mk (s.toList.flatMap jsonEscapeChar) ++ "\""

mutual

/-- Serialize a JSON value to its canonical `encoding/json` text (object
fields in their given order, integers in decimal). -/
def Json.render : Json → String
  | .null => "null"
  | .bool true => "true"
  | .bool false => "false"
  | .num n => toString n
  | .str s => jsonQuote s
  | .arr xs => "[" ++ Json.renderArr xs ++ "]"
  | .obj fields => "\x7b" ++ Json.renderObj fields ++ "\x7d"

/-- Comma-separated rendering of array elements. -/
def Json.renderArr : List Json → String
  | [] => ""
  | [x] => Json.render x
  | x :: xs => Json.render x ++ "," ++ Json.renderArr xs

/-- Comma-separated rendering of object fields. -/
def Json.renderObj : List (String × Json) → String
  | [] => ""
  | [kv] => jsonQuote kv.1 ++ ":" ++ Json.render kv.2
  | kv :: kvs => jsonQuote kv.1 ++ ":" ++ Json.render kv.2 ++ "," ++ Json.renderObj kvs

end

/-- One character of the standard base64 alphabet (Go marshals `[]byte`
values as base64 strings). -/
def base64Char (n : Nat) : Char :=
  if n < 26 then Char.ofNat (65 + n)
  else if n < 52 then Char.ofNat (97 + (n - 26))
  else if n < 62 then Char.ofNat (48 + (n - 52))
  else if n = 62 then '+'
  else '/'

/-- Standard base64 of a byte sequence, three bytes at a time. -/
def base64Chunks : List Nat → List Char
  | [] => []
  | [a] => [base64Char (a / 4), base64Char (a % 4 * 16), '=', '=']
  | [a, b] => [base64Char (a / 4), base64Char (a % 4 * 16 + b / 16), base64Char (b % 16 * 4), '=']
  | a :: b :: c :: rest =>
    base64Char (a / 4) :: base64Char (a % 4 * 16 + b / 16) ::
      base64Char (b % 16 * 4 + c / 64) :: base64Char (c % 64) :: base64Chunks rest

/-! ## Logical requests and the payload encoders -/

/-- `UploadOptions` (medium.go lines 90–94).  `fieldName` is unexported in
the source: no code outside the package can set it. -/
structure UploadOptions where
  FilePath : String
  ContentType : String
  fieldName : String
deriving DecidableEq

/-- The dynamic shape of `clientRequest.data` (an `interface{}` in the
source).  The package itself only ever stores: nothing (GET requests), a
JSON-marshalable options value, a pre-encoded form `string`, or an
`UploadOptions`; `bytes` covers the `[]byte` arm of the form encoder's type
switch. -/
inductive RequestData where
  | null : RequestData
  | json (j : Json) : RequestData
  | str (s : String) : RequestData
  | bytes (s : String) : RequestData
  | upload (uo : UploadOptions) : RequestData

/-- `clientRequest` (medium.go lines 464–469); the zero values of `data` and
`format` model the fields being left unset. -/
structure ClientRequest where
  method : String
  path : String
  data : RequestData := .null
  format : String := ""

/-- Format names (medium.go lines 66–70). -/
def formatJSON : String := "json"

/-- Format name of the URL-form encoding. -/
def formatForm : String := "form"

/-- Format name of the multipart-file encoding. -/
def formatFile : String := "file"

/-- `json.Marshal(cr.data)` on the shapes `RequestData` can hold.  None of
these shapes can fail to marshal, so the `Could not marshal JSON` branch of
`generateJSONRequestData` is unreachable in the model. -/
def dataMarshalJSON : RequestData → String
  | .null => "null"
  | .json j => j.render
  | .str s => jsonQuote s
  | .bytes s => jsonQuote (String.mk (base64Chunks (s.toList.map Char.toNat)))
  | .upload uo =>
    (Json.obj [("FilePath", .str uo.FilePath), ("ContentType", .str uo.ContentType)]).render

/-- `generateJSONRequestData` (medium.go lines 317–323): marshal the payload,
content type `application/json`. -/
def generateJSONRequestData (cr : ClientRequest) : Except Error (String × String) :=
  .ok (dataMarshalJSON cr.data, "application/json")

/-- `generateFormRequestData` (medium.go lines 326–337): a `string` payload
becomes its bytes, a `[]byte` payload is used as-is, any other shape fails
with the sentinel-coded error; content type
`application/x-www-form-urlencoded`. -/
def generateFormRequestData (cr : ClientRequest) : Except Error (String × String) :=
  match cr.data with
  | .str s => .ok (s, "application/x-www-form-urlencoded")
  | .bytes b => .ok (b, "application/x-www-form-urlencoded")
  | _ => .error ⟨"Invalid data passed for form request", defaultCode⟩

/-! ## The multipart encoder -/

/-- `escapeQuotes` (medium.go lines 490–492): the
`strings.NewReplacer("\\", "\\\\", quote, "\\"+quote)` pass, replacing each
backslash and each double quote by its escaped form. -/
def escapeQuotes (s : String) : String :=
  String.mk (s.toList.flatMap fun c =>
    if c = '\\' then ['\\', '\\']
    else if c = '"' then ['\\', '"']
    else [c])

/-- `filepath.Base` (Unix): `""` gives `"."`; trailing separators are
dropped; everything up to and including the last separator is dropped; an
all-separator path gives `"/"`. -/
def filepathBase (path : String) : String :=
  if path = "" then "."
  else
    let trimmed := (path.toList.reverse.dropWhile (· = '/')).reverse
    let base := (trimmed.reverse.takeWhile (· ≠ '/')).reverse
    if base = [] then "/" else String.mk base

/-- Byte-wise lexicographic comparison of character lists (Go compares
strings byte-wise; on ASCII data the two coincide). -/
def charListLeB : List Char → List Char → Bool
  | [], _ => true
  | _ :: _, [] => false
  | a :: xs, b :: ys =>
    if a.toNat < b.toNat then true
    else if b.toNat < a.toNat then false
    else charListLeB xs ys

/-- Byte-wise `≤` on strings, as `sort.Strings` orders them. -/
def strLeB (a b : String) : Bool := charListLeB a.toList b.toList

/-- Insert into a list sorted by `le`. -/
def insertLeB {α : Type} (le : α → α → Bool) (a : α) : List α → List α
  | [] => [a]
  | b :: bs => if le a b then a :: b :: bs else b :: insertLeB le a bs

/-- Insertion sort by `le`; stands in for `sort.Strings`, which the multipart
writer and `url.Values.Encode` apply to keys (the keys involved are distinct,
so any sort yields the same list). -/
def sortLeB {α : Type} (le : α → α → Bool) : List α → List α
  | [] => []
  | a :: xs => insertLeB le a (sortLeB le xs)

/-- Render MIME headers, one `key: value\r\n` line each. -/
def renderHeaders : List (String × String) → String
  | [] => ""
  | kv :: rest => kv.1 ++ ": " ++ kv.2 ++ "\r\n" ++ renderHeaders rest

/-- `multipart.Writer.CreatePart` for the writer's first part: the opening
boundary line, then the headers sorted by key, then a blank line. -/
def createPart (boundary : String) (header : List (String × String)) : String :=
  "--" ++ boundary ++ "\r\n" ++
    renderHeaders (sortLeB (fun a b => strLeB a.1 b.1) header) ++ "\r\n"

/-- `multipart.Writer.Close`: the terminating boundary marker. -/
def writerClose (boundary : String) : String :=
  "\r\n--" ++ boundary ++ "--\r\n"

/-- `multipart.Writer.FormDataContentType`: the boundary-bearing content-type
string, quoting the boundary when it contains a special character (the
writer's random boundaries never do). -/
def formDataContentType (boundary : String) : String :=
  if boundary.toList.any (fun c =>
      c ∈ ['(', ')', '<', '>', '@', ',', ';', ':', '\\', '"', '/', '[', ']', '?', '=', ' ']) then
    "multipart/form-data; boundary=\"" ++ boundary ++ "\""
  else
    "multipart/form-data; boundary=" ++ boundary

/-- Outcome of opening and fully reading a file through the injected
`fileOpener`: the open can fail, the subsequent `io.Copy` read can fail, or
the full contents are produced. -/
inductive OpenResult where
  | failOpen (msg : String) : OpenResult
  | failRead (msg : String) : OpenResult
  | ok (contents : String) : OpenResult

/-- `generateFileRequestData` (medium.go lines 340–369): requires an
`UploadOptions` payload; opens the file via the injected opener (failure
wraps the cause); writes a single multipart part whose
`Content-Disposition` carries the quote-escaped field name and the
quote-escaped base name of the file path and whose `Content-Type` is the
options' content type, followed by the file contents and the closing
boundary; returns the writer's boundary-bearing content-type string.
`w.CreatePart` itself cannot fail on a fresh writer, so that branch is
unreachable in the model; a failing `io.Copy` surfaces as
`Could not copy data`.  The writer's random boundary is the `boundary`
parameter. -/
def generateFileRequestData (openFile : String → OpenResult) (boundary : String)
    (cr : ClientRequest) : Except Error (String × String) :=
  match cr.data with
  | .upload uo =>
    match openFile uo.FilePath with
    | .failOpen msg => .error ⟨"Could not open file: " ++ msg, defaultCode⟩
    | .failRead msg => .error ⟨"Could not copy data: " ++ msg, defaultCode⟩
    | .ok contents =>
      let disposition := "form-data; name=\"" ++ escapeQuotes uo.fieldName ++
        "\"; filename=\"" ++ escapeQuotes (filepathBase uo.FilePath) ++ "\""
      .ok (createPart boundary
            [("Content-Disposition", disposition), ("Content-Type", uo.ContentType)] ++
          contents ++ writerClose boundary,
        formDataContentType boundary)
  | _ => .error ⟨"Invalid data passed for file upload", defaultCode⟩

/-! ## URL query encoding (`net/url`)

`url.Values.Encode` and `url.ParseQuery` work byte-wise; bytes are `Nat`s
here.  A Lean character corresponds to one Go byte via `Char.toNat`, exactly
for ASCII data. -/

/-- Bytes `url.QueryEscape` leaves unescaped in a query component:
alphanumerics and `-`, `.`, `_`, `~`. -/
def isUnreservedQuery (b : Nat) : Bool :=
  if (48 ≤ b ∧ b ≤ 57) ∨ (65 ≤ b ∧ b ≤ 90) ∨ (97 ≤ b ∧ b ≤ 122)
      ∨ b = 45 ∨ b = 46 ∨ b = 95 ∨ b = 126 then true else false

/-- Upper-case hexadecimal digit byte, as `%XX` escapes use. -/
def hexDigitUpper (d : Nat) : Nat :=
  if d < 10 then 48 + d else 55 + d

/-- `url.QueryEscape` on one byte: unreserved bytes pass through, a space
becomes `+`, every other byte becomes `%XX`. -/
def queryEscapeByte (b : Nat) : List Nat :=
  if isUnreservedQuery b then [b]
  else if b = 32 then [43]
  else [37, hexDigitUpper (b / 16), hexDigitUpper (b % 16)]

/-- `url.QueryEscape` on a byte string, byte by byte. -/
def queryEscapeBytes : List Nat → List Nat
  | [] => []
  | b :: rest => queryEscapeByte b ++ queryEscapeBytes rest

/-- Value of a hexadecimal digit byte (either case), if it is one. -/
def unhexDigit (b : Nat) : Option Nat :=
  if 48 ≤ b ∧ b ≤ 57 then some (b - 48)
  else if 65 ≤ b ∧ b ≤ 70 then some (b - 55)
  else if 97 ≤ b ∧ b ≤ 102 then some (b - 87)
  else none

/-- `url.QueryUnescape`: `+` becomes a space, `%XX` becomes the byte `XX`
(failing on a malformed escape), everything else passes through; an error
anywhere fails the whole unescape (`Except.map` propagates it). -/
def queryUnescapeBytes : List Nat → Except String (List Nat)
  | [] => .ok []
  | c :: rest =>
    if c = 43 then (queryUnescapeBytes rest).map (fun l => 32 :: l)
    else if c = 37 then
      match rest with
      | hi :: lo :: rest2 =>
        match unhexDigit hi, unhexDigit lo with
        | some h, some l => (queryUnescapeBytes rest2).map (fun tail => (16 * h + l) :: tail)
        | _, _ => .error "invalid URL escape"
      | _ => .error "invalid URL escape"
    else (queryUnescapeBytes rest).map (fun l => c :: l)

/-- Byte-wise lexicographic `≤` on byte strings (`sort.Strings`). -/
def bytesLeB : List Nat → List Nat → Bool
  | [], _ => true
  | _ :: _, [] => false
  | a :: xs, b :: ys =>
    if a < b then true
    else if b < a then false
    else bytesLeB xs ys

/-- `url.Values` seen as an association in first-appearance order: each key
carries its list of values.  Go's map is unordered; equality of these
associations implies equality of the maps they build. -/
abbrev ValuesB := List (List Nat × List (List Nat))

/-- `m[key] = append(m[key], value)` on the association. -/
def valuesAdd (m : ValuesB) (k v : List Nat) : ValuesB :=
  match m with
  | [] => [(k, [v])]
  | (k', vs) :: rest =>
    if k' = k then (k', vs ++ [v]) :: rest else (k', vs) :: valuesAdd rest k v

/-- One `k=v` chunk of an encoded query. -/
def encodePair (k v : List Nat) : List Nat :=
  queryEscapeBytes k ++ 61 :: queryEscapeBytes v

/-- Join chunks with `&`, as `Encode`'s buffer loop does. -/
def joinAmp : List (List Nat) → List Nat
  | [] => []
  | [x] => x
  | x :: xs => x ++ 38 :: joinAmp xs

/-- `url.Values.Encode`: keys sorted byte-wise, each value escaped and
emitted as `k=v`, chunks joined with `&`. -/
def urlValuesEncode (vs : ValuesB) : List Nat :=
  joinAmp ((sortLeB (fun a b => bytesLeB a.1 b.1) vs).flatMap fun kv =>
    kv.2.map (encodePair kv.1))

/-- Split a byte string on a separator byte (the repeated `strings.Cut` loop
of `url.parseQuery`). -/
def splitOnByte (sep : Nat) : List Nat → List (List Nat)
  | [] => [[]]
  | b :: rest =>
    if b = sep then [] :: splitOnByte sep rest
    else
      match splitOnByte sep rest with
      | s :: ss => (b :: s) :: ss
      | [] => [[b]]

/-- `strings.Cut` on bytes: the part before the first separator and the part
after it (everything and `[]` when the separator is absent). -/
def cutByte (sep : Nat) : List Nat → List Nat × List Nat
  | [] => ([], [])
  | b :: rest =>
    if b = sep then ([], rest)
    else
      let p := cutByte sep rest
      (b :: p.1, p.2)

/-- One iteration of `url.parseQuery`'s loop on a `&`-separated segment:
a segment containing `;` is rejected, an empty segment is skipped, otherwise
the segment is cut at the first `=` and both halves unescaped; an unescape
failure flags the error and skips the segment.  The `Bool` is the "some
error was reported" flag (Go keeps the first error value). -/
def parseQuerySeg (acc : ValuesB × Bool) (seg : List Nat) : ValuesB × Bool :=
  if 59 ∈ seg then (acc.1, true)
  else if seg = [] then acc
  else
    let kv := cutByte 61 seg
    match queryUnescapeBytes kv.1 with
    | .error _ => (acc.1, true)
    | .ok k =>
      match queryUnescapeBytes kv.2 with
      | .error _ => (acc.1, true)
      | .ok v => (valuesAdd acc.1 k v, acc.2)

/-- `url.ParseQuery` on bytes: the resulting value map (in first-appearance
order) and whether any error was reported. -/
def parseQueryBytes (query : List Nat) : ValuesB × Bool :=
  (splitOnByte 38 query).foldl parseQuerySeg ([], false)

/-- The bytes of a Go string holding this Lean string (exact for ASCII). -/
def strBytes (s : String) : List Nat :=
  s.toList.map Char.toNat

/-- The Lean string displaying these Go bytes (exact for ASCII). -/
def bytesStr (l : List Nat) : String :=
  String.mk (l.map Char.ofNat)

/-- View a string-level `url.Values` association at byte level. -/
def valuesToBytes (vs : List (String × List String)) : ValuesB :=
  vs.map fun kv => (strBytes kv.1, kv.2.map strBytes)

/-- `v.Encode()` as a string-level operation. -/
def urlValuesEncodeStr (vs : List (String × List String)) : String :=
  bytesStr (urlValuesEncode (valuesToBytes vs))

/-! ## The client, the transport boundary and the pipeline -/

/-- Stand-in for an `http.RoundTripper` value: the default transport or some
caller-supplied one.  `Medium.Transport` is `none` when the Go field is
`nil`. -/
inductive TransportRef where
  | defaultTransport : TransportRef
  | custom (id : Nat) : TransportRef
deriving DecidableEq

/-- Stand-in for a `fileOpener` value: the disk-backed `osFS` or some
injected double. -/
inductive FSRef where
  | osFS : FSRef
  | custom (id : Nat) : FSRef
deriving DecidableEq

/-- `Medium` (medium.go lines 171–179): the client.  `Timeout` is a
`time.Duration` in nanoseconds. -/
structure Medium where
  ApplicationID : String
  ApplicationSecret : String
  AccessToken : String
  Host : String
  Timeout : Int
  Transport : Option TransportRef
  fs : FSRef
deriving DecidableEq

/-- `host` (medium.go line 58): the default API host. -/
def host : String := "https://api.medium.com"

/-- `defaultTimeout` (medium.go line 60): `5 * time.Second` in nanoseconds. -/
def defaultTimeout : Int := 5 * 1000000000

/-- `NewClient` (medium.go lines 182–191). -/
def NewClient (id secret : String) : Medium :=
  { ApplicationID := id
    ApplicationSecret := secret
    AccessToken := ""
    Host := host
    Timeout := defaultTimeout
    Transport := some .defaultTransport
    fs := .osFS }

/-- `NewClientWithAccessToken` (medium.go lines 194–200): the composite
literal sets only the token, the host and the file opener; every other field
keeps its Go zero value. -/
def NewClientWithAccessToken (accessToken : String) : Medium :=
  { ApplicationID := ""
    ApplicationSecret := ""
    AccessToken := accessToken
    Host := host
    Timeout := 0
    Transport := none
    fs := .osFS }

/-- The one HTTP request `request` builds: method, full URL, encoded body and
the four headers it sets. -/
structure HttpRequest where
  method : String
  url : String
  body : String
  contentType : String
  accept : String
  acceptCharset : String
  authorization : String

/-- What the world does with one HTTP call: `http.NewRequest` fails,
`client.Do` fails, `ioutil.ReadAll` fails, or a response arrives with a
status code and body bytes. -/
inductive NetOutcome where
  | buildFail (msg : String) : NetOutcome
  | sendFail (msg : String) : NetOutcome
  | readFail (msg : String) : NetOutcome
  | response (status : Int) (content : RawContent) : NetOutcome

/-- The ambient effects of one pipeline call: the network (a function of the
client's transport, its timeout and the request), the behaviour of each
file-opener value, and the random boundary `multipart.NewWriter` draws. -/
structure World where
  net : Option TransportRef → Int → HttpRequest → NetOutcome
  fsOpen : FSRef → String → OpenResult
  boundary : String

/-- `request` (medium.go lines 372–438): default the format to JSON, pick
the matching generator (an unknown format fails with the sentinel-coded
error naming `cr.format`), encode the payload, build the HTTP request
against `m.Host + cr.path` with the bearer, accept and content-type headers,
run it through an `http.Client` made from the client's transport and
timeout, and hand the body and status to the response normalizer (whose
logic lines 425–437 inline; see `parseResponse`).  `none` models the
normalizer's panic. -/
def Medium.request {α : Type} (w : World) (decode : Json → Except String α)
    (m : Medium) (cr : ClientRequest) : Option (Except GoErr α) :=
  let f := if cr.format = "" then formatJSON else cr.format
  if f = formatJSON ∨ f = formatForm ∨ f = formatFile then
    let gen :=
      if f = formatJSON then generateJSONRequestData cr
      else if f = formatForm then generateFormRequestData cr
      else generateFileRequestData (w.fsOpen m.fs) w.boundary cr
    match gen with
    | .error e => some (.error (.api e))
    | .ok (body, ct) =>
      match w.net m.Transport m.Timeout
          { method := cr.method
            url := m.Host ++ cr.path
            body := body
            contentType := ct
            accept := "application/json"
            acceptCharset := "utf-8"
            authorization := "Bearer " ++ m.AccessToken } with
      | .buildFail msg =>
        some (.error (.api ⟨"Could not create request: " ++ msg, defaultCode⟩))
      | .sendFail msg =>
        some (.error (.api ⟨"Failed to make request: " ++ msg, defaultCode⟩))
      | .readFail msg =>
        some (.error (.api ⟨"Could not read response: " ++ msg, defaultCode⟩))
      | .response status content => parseResponse decode content status
  else
    some (.error (.api ⟨"Unknown format: " ++ cr.format, defaultCode⟩))

/-! ## Typed results and their decoders -/

/-- `User` (medium.go lines 106–112). -/
structure User where
  ID : String
  Username : String
  Name : String
  URL : String
  ImageURL : String
deriving DecidableEq

/-- Decode a `[]T` struct field elementwise. -/
def jsonListField {β : Type} (dec : Json → Except String β)
    (fields : List (String × Json)) (key : String) : Except String (List β) :=
  match jsonLookup fields key with
  | none => .ok []
  | some .null => .ok []
  | some (.arr xs) => xs.mapM dec
  | some _ => .error typeErrMsg

/-- Unmarshal into `User` (tags `id`, `username`, `name`, `url`,
`imageUrl`). -/
def userOfJson : Json → Except String User
  | .null => .ok ⟨"", "", "", "", ""⟩
  | .obj fields => do
    let id ← jsonStringField fields "id"
    let un ← jsonStringField fields "username"
    let nm ← jsonStringField fields "name"
    let url ← jsonStringField fields "url"
    let img ← jsonStringField fields "imageurl"
    .ok ⟨id, un, nm, url, img⟩
  | _ => .error typeErrMsg

/-- `Publication` (medium.go lines 120–126). -/
structure Publication where
  ID : String
  Name : String
  Description : String
  URL : String
  ImageURL : String
deriving DecidableEq

/-- Unmarshal into `Publication`. -/
def publicationOfJson : Json → Except String Publication
  | .null => .ok ⟨"", "", "", "", ""⟩
  | .obj fields => do
    let id ← jsonStringField fields "id"
    let nm ← jsonStringField fields "name"
    let ds ← jsonStringField fields "description"
    let url ← jsonStringField fields "url"
    let img ← jsonStringField fields "imageurl"
    .ok ⟨id, nm, ds, url, img⟩
  | _ => .error typeErrMsg

/-- `Publications` (medium.go lines 115–117): `{Data []Publication}` with
tag `data`. -/
structure Publications where
  Data : List Publication
deriving DecidableEq

/-- Unmarshal into `Publications`. -/
def publicationsOfJson : Json → Except String Publications
  | .null => .ok ⟨[]⟩
  | .obj fields => do
    let d ← jsonListField publicationOfJson fields "data"
    .ok ⟨d⟩
  | _ => .error typeErrMsg

/-- `Contributor` (medium.go lines 134–138). -/
structure Contributor where
  PublicationID : String
  UserID : String
  Role : String
deriving DecidableEq

/-- Unmarshal into `Contributor` (tags `publicationID`, `userID`, `role`). -/
def contributorOfJson : Json → Except String Contributor
  | .null => .ok ⟨"", "", ""⟩
  | .obj fields => do
    let p ← jsonStringField fields "publicationid"
    let u ← jsonStringField fields "userid"
    let r ← jsonStringField fields "role"
    .ok ⟨p, u, r⟩
  | _ => .error typeErrMsg

/-- `Contributors` (medium.go lines 129–131). -/
structure Contributors where
  Data : List Contributor
deriving DecidableEq

/-- Unmarshal into `Contributors`. -/
def contributorsOfJson : Json → Except String Contributors
  | .null => .ok ⟨[]⟩
  | .obj fields => do
    let d ← jsonListField contributorOfJson fields "data"
    .ok ⟨d⟩
  | _ => .error typeErrMsg

/-- `Post` (medium.go lines 141–151). -/
structure Post where
  ID : String
  Title : String
  AuthorID : String
  Tags : List String
  URL : String
  CanonicalURL : String
  PublishState : String
  License : String
  LicenseURL : String
deriving DecidableEq

/-- Unmarshal into `Post` (tags `id`, `title`, `authorId`, `tags`, `url`,
`canonicalUrl`, `publishStatus`, `license`, `licenseUrl`). -/
def postOfJson : Json → Except String Post
  | .null => .ok ⟨"", "", "", [], "", "", "", "", ""⟩
  | .obj fields => do
    let id ← jsonStringField fields "id"
    let ti ← jsonStringField fields "title"
    let au ← jsonStringField fields "authorid"
    let tg ← jsonStringListField fields "tags"
    let url ← jsonStringField fields "url"
    let cu ← jsonStringField fields "canonicalurl"
    let ps ← jsonStringField fields "publishstatus"
    let li ← jsonStringField fields "license"
    let lu ← jsonStringField fields "licenseurl"
    .ok ⟨id, ti, au, tg, url, cu, ps, li, lu⟩
  | _ => .error typeErrMsg

/-- `Image` (medium.go lines 154–157). -/
structure Image where
  URL : String
  MD5 : String
deriving DecidableEq

/-- Unmarshal into `Image` (tags `url`, `md5`). -/
def imageOfJson : Json → Except String Image
  | .null => .ok ⟨"", ""⟩
  | .obj fields => do
    let url ← jsonStringField fields "url"
    let md5 ← jsonStringField fields "md5"
    .ok ⟨url, md5⟩
  | _ => .error typeErrMsg

/-- `CreatePostOptions` (medium.go lines 78–87); the enum-typed fields are
plain strings underneath. -/
structure CreatePostOptions where
  UserID : String
  Title : String
  Content : String
  ContentFormat : String
  Tags : List String
  CanonicalURL : String
  PublishStatus : String
  License : String

/-- `json.Marshal` on `CreatePostOptions`: `UserID` carries tag `json:"-"`
and is omitted, `tags`/`canonicalUrl`/`publishStatus`/`license` carry
`omitempty` and are dropped at their zero values; fields appear in
declaration order. -/
def CreatePostOptions.toJson (o : CreatePostOptions) : Json :=
  .obj ([("title", .str o.Title), ("content", .str o.Content),
      ("contentFormat", .str o.ContentFormat)] ++
    (if o.Tags = [] then [] else [("tags", .arr (o.Tags.map .str))]) ++
    (if o.CanonicalURL = "" then [] else [("canonicalUrl", .str o.CanonicalURL)]) ++
    (if o.PublishStatus = "" then [] else [("publishStatus", .str o.PublishStatus)]) ++
    (if o.License = "" then [] else [("license", .str o.License)]))

/-! ## Operation methods

Each returns the client state after the call alongside the call's result;
the Go methods mutate the pointer receiver, and only `acquireAccessToken`
contains an assignment to a client field. -/

/-- `GetUser` (medium.go lines 245–261). -/
def Medium.GetUser (w : World) (m : Medium) (userID : String) :
    Medium × Option (Except GoErr User) :=
  let r : ClientRequest :=
    if userID = "" then { method := "GET", path := "/v1/me" }
    else { method := "GET", path := "/v1/" ++ userID }
  (m, m.request w userOfJson r)

/-- `GetUserPublications` (medium.go lines 265–273). -/
def Medium.GetUserPublications (w : World) (m : Medium) (userID : String) :
    Medium × Option (Except GoErr Publications) :=
  (m, m.request w publicationsOfJson
    { method := "GET", path := "/v1/users/" ++ userID ++ "/publications" })

/-- `GetPublicationContributors` (medium.go lines 278–286). -/
def Medium.GetPublicationContributors (w : World) (m : Medium) (publicationID : String) :
    Medium × Option (Except GoErr Contributors) :=
  (m, m.request w contributorsOfJson
    { method := "GET", path := "/v1/publications/" ++ publicationID ++ "/contributors" })

/-- `CreatePost` (medium.go lines 290–299). -/
def Medium.CreatePost (w : World) (m : Medium) (o : CreatePostOptions) :
    Medium × Option (Except GoErr Post) :=
  (m, m.request w postOfJson
    { method := "POST", path := "/v1/users/" ++ o.UserID ++ "/posts", data := .json o.toJson })

/-- The request `UploadImage` (medium.go lines 303–310) constructs: the
method first overwrites `o.fieldName` with `"image"`, then builds the
file-format request from the updated options. -/
def uploadImageRequest (o : UploadOptions) : ClientRequest :=
  { method := "POST"
    path := "/v1/images"
    format := formatFile
    data := .upload { o with fieldName := "image" } }

/-- `UploadImage` (medium.go lines 303–314). -/
def Medium.UploadImage (w : World) (m : Medium) (o : UploadOptions) :
    Medium × Option (Except GoErr Image) :=
  (m, m.request w imageOfJson (uploadImageRequest o))

/-- `acquireAccessToken` (medium.go lines 441–456): POST the encoded values
to `/v1/tokens` as a form request; when and only when the pipeline returns
without error, overwrite the client's bearer token with the granted
`at.AccessToken`. -/
def Medium.acquireAccessToken (w : World) (m : Medium) (v : List (String × List String)) :
    Medium × Option (Except GoErr MediumGo.AccessToken) :=
  let cr : ClientRequest :=
    { method := "POST", path := "/v1/tokens", format := formatForm,
      data := .str (urlValuesEncodeStr v) }
  match m.request w accessTokenOfJson cr with
  | some (.ok t) => ({ m with AccessToken := t.AccessToken }, some (.ok t))
  | r => (m, r)

/-- The historical `acquireAccessToken` of part_002 (lines 64–78), whose
guard reads `if err != nil`: on a successful exchange the assignment is
skipped and the stored token is left alone, while on a failed exchange
`m.AccessToken = at.AccessToken` runs against the local `at`, which the
failing pipeline left at its zero value (the API-error and transport
branches return before populating it), writing `""`.  Its surrounding
pipeline (part_001 lines 82–168) differs from medium.go only in building the
HTTP client without the transport and timeout fields, which the `World`
oracle absorbs. -/
def Medium.acquireAccessTokenLegacy (w : World) (m : Medium)
    (v : List (String × List String)) : Medium × Option (Except GoErr MediumGo.AccessToken) :=
  let cr : ClientRequest :=
    { method := "POST", path := "/v1/tokens", format := formatForm,
      data := .str (urlValuesEncodeStr v) }
  match m.request w accessTokenOfJson cr with
  | some (.ok t) => (m, some (.ok t))
  | some (.error e) => ({ m with AccessToken := "" }, some (.error e))
  | none => (m, none)

/-- The parameter set `ExchangeRefreshToken` (medium.go lines 232–240)
builds: `refresh_token`, `client_id`, `client_secret`,
`grant_type=refresh_token`. -/
def refreshTokenValues (rt cid cs : String) : List (String × List String) :=
  [("refresh_token", [rt]), ("client_id", [cid]), ("client_secret", [cs]),
    ("grant_type", ["refresh_token"])]

/-- `ExchangeRefreshToken` (medium.go lines 232–240). -/
def Medium.ExchangeRefreshToken (w : World) (m : Medium) (rt : String) :
    Medium × Option (Except GoErr MediumGo.AccessToken) :=
  m.acquireAccessToken w (refreshTokenValues rt m.ApplicationID m.ApplicationSecret)

/-- The parameter set `ExchangeAuthorizationCode` (medium.go lines 220–229)
builds. -/
def authorizationCodeValues (code cid cs redirectURL : String) :
    List (String × List String) :=
  [("code", [code]), ("client_id", [cid]), ("client_secret", [cs]),
    ("grant_type", ["authorization_code"]), ("redirect_uri", [redirectURL])]

/-- `ExchangeAuthorizationCode` (medium.go lines 220–229). -/
def Medium.ExchangeAuthorizationCode (w : World) (m : Medium) (code redirectURL : String) :
    Medium × Option (Except GoErr MediumGo.AccessToken) :=
  m.acquireAccessToken w (authorizationCodeValues code m.ApplicationID m.ApplicationSecret redirectURL)

/-- `GetAuthorizationURL` (medium.go lines 204–217): a pure URL
construction, no pipeline call. -/
def Medium.GetAuthorizationURL (m : Medium) (state redirectURL : String)
    (scopes : List String) : String :=
  "https://medium.com/m/oauth/authorize?" ++ urlValuesEncodeStr
    [("client_id", [m.ApplicationID]), ("scope", [String.intercalate "," scopes]),
      ("state", [state]), ("response_type", ["code"]), ("redirect_uri", [redirectURL])]

/-! ## Theorems -/

/-- Sorting the two multipart headers by key keeps `Content-Disposition`
before `Content-Type` (byte-wise, `D < T`). -/
theorem sortHeaders_pair (v1 v2 : String) :
    sortLeB (fun a b : String × String => strLeB a.1 b.1)
        [("Content-Disposition", v1), ("Content-Type", v2)] =
      [("Content-Disposition", v1), ("Content-Type", v2)] := rfl

/-- Shared shape lemma for the multipart encoder: on an `UploadOptions`
payload whose file opens and reads fully, `generateFileRequestData` returns
exactly one part — opening boundary line, the quote-escaped
`Content-Disposition` header, the `Content-Type` header, a blank line, the
file contents and the closing boundary — with the writer's boundary-bearing
content type. -/
theorem generateFileRequestData_ok (openFile : String → OpenResult) (boundary : String)
    (uo : UploadOptions) (contents : String) (cr : ClientRequest)
    (hdata : cr.data = .upload uo) (hopen : openFile uo.FilePath = .ok contents) :
    generateFileRequestData openFile boundary cr =
      .ok ("--" ++ boundary ++ "\r\n" ++
          "Content-Disposition" ++ ": " ++
          "form-data; name=\"" ++ escapeQuotes uo.fieldName ++ "\"; filename=\"" ++
          escapeQuotes (filepathBase uo.FilePath) ++ "\"" ++ "\r\n" ++
          "Content-Type" ++ ": " ++ uo.ContentType ++ "\r\n" ++ "\r\n" ++
          contents ++ "\r\n--" ++ boundary ++ "--\r\n",
        formDataContentType boundary) := by
  obtain ⟨method, path, data, format⟩ := cr
  simp only at hdata
  subst hdata
  simp only [generateFileRequestData, hopen, createPart, sortHeaders_pair, renderHeaders,
    writerClose]
  simp only [String.append_assoc, String.append_empty, String.empty_append]

/-- **C5**: for every `UploadOptions` whose file opens successfully and
reads fully, the multipart encoder produces a body holding exactly one part
whose headers are `Content-Disposition: form-data; name="<field name,
quote-escaped>"; filename="<base name of the file path, quote-escaped>"` and
`Content-Type: <the options' content type>`, whose content is the file's
full contents, framed by the writer's boundary markers; the returned
content-type string is the multipart writer's boundary-bearing string. -/
theorem multipart_single_part_exact (openFile : String → OpenResult) (boundary : String)
    (uo : UploadOptions) (contents : String)
    (hopen : openFile uo.FilePath = .ok contents) :
    generateFileRequestData openFile boundary
        { method := "POST", path := "/v1/images", format := formatFile, data := .upload uo } =
      .ok ("--" ++ boundary ++ "\r\n" ++
          "Content-Disposition" ++ ": " ++
          "form-data; name=\"" ++ escapeQuotes uo.fieldName ++ "\"; filename=\"" ++
          escapeQuotes (filepathBase uo.FilePath) ++ "\"" ++ "\r\n" ++
          "Content-Type" ++ ": " ++ uo.ContentType ++ "\r\n" ++ "\r\n" ++
          contents ++ "\r\n--" ++ boundary ++ "--\r\n",
        formDataContentType boundary) :=
  generateFileRequestData_ok openFile boundary uo contents _ rfl hopen

/-- Witness for C5 at the repository's own test vector: field name `image`,
path `/fake/file.png`, content type `image/png`, contents `contents`,
boundary `b`. -/
theorem multipart_single_part_exact_witness :
    generateFileRequestData (fun _ => .ok "contents") "b"
        { method := "POST", path := "/v1/images", format := formatFile,
          data := .upload ⟨"/fake/file.png", "image/png", "image"⟩ } =
      .ok ("--b\r\nContent-Disposition: form-data; name=\"image\"; filename=\"file.png\"\r\nContent-Type: image/png\r\n\r\ncontents\r\n--b--\r\n",
        "multipart/form-data; boundary=b") :=
  (multipart_single_part_exact (fun _ => .ok "contents") "b"
    ⟨"/fake/file.png", "image/png", "image"⟩ "contents" rfl).trans rfl

/-- **C9**: `UploadImage` unconditionally overwrites the multipart form
field name with the constant `"image"` before encoding, so the part the
encoder produces from the request it builds always carries
`name="image"`, whatever `fieldName` held. -/
theorem uploadImage_forces_image_field (o : UploadOptions) :
    (uploadImageRequest o).data = .upload ⟨o.FilePath, o.ContentType, "image"⟩ ∧
    ∀ (openFile : String → OpenResult) (boundary contents : String),
      openFile o.FilePath = .ok contents →
      generateFileRequestData openFile boundary (uploadImageRequest o) =
        .ok ("--" ++ boundary ++ "\r\n" ++
            "Content-Disposition" ++ ": " ++
            "form-data; name=\"" ++ "image" ++ "\"; filename=\"" ++
            escapeQuotes (filepathBase o.FilePath) ++ "\"" ++ "\r\n" ++
            "Content-Type" ++ ": " ++ o.ContentType ++ "\r\n" ++ "\r\n" ++
            contents ++ "\r\n--" ++ boundary ++ "--\r\n",
          formDataContentType boundary) := by
  refine ⟨rfl, fun openFile boundary contents hopen => ?_⟩
  have h := generateFileRequestData_ok openFile boundary
    ⟨o.FilePath, o.ContentType, "image"⟩ contents (uploadImageRequest o) rfl hopen
  rw [h]
  have hesc : escapeQuotes "image" = "image" := rfl
  rw [hesc]

/-- Witness for C9: a caller-chosen field name (`evil`) never reaches the
encoder — the emitted part still says `name="image"`. -/
theorem uploadImage_forces_image_field_witness :
    generateFileRequestData (fun _ => .ok "contents") "b"
        (uploadImageRequest ⟨"/fake/file.png", "image/png", "evil"⟩) =
      .ok ("--b\r\nContent-Disposition: form-data; name=\"image\"; filename=\"file.png\"\r\nContent-Type: image/png\r\n\r\ncontents\r\n--b--\r\n",
        "multipart/form-data; boundary=b") :=
  ((uploadImage_forces_image_field ⟨"/fake/file.png", "image/png", "evil"⟩).2
    (fun _ => .ok "contents") "b" "contents" rfl).trans rfl

/-- **C8**: the URL-form encoder passes a `string` payload through as its
bytes and a `[]byte` payload as-is, with content type
`application/x-www-form-urlencoded`, and fails with the sentinel-coded
`Error` on every other payload shape. -/
theorem formEncoder_passthrough_or_sentinel (cr : ClientRequest) :
    (∀ s, cr.data = .str s →
      generateFormRequestData cr = .ok (s, "application/x-www-form-urlencoded")) ∧
    (∀ b, cr.data = .bytes b →
      generateFormRequestData cr = .ok (b, "application/x-www-form-urlencoded")) ∧
    ((∀ s, cr.data ≠ .str s) → (∀ b, cr.data ≠ .bytes b) →
      generateFormRequestData cr =
        .error ⟨"Invalid data passed for form request", defaultCode⟩) := by
  refine ⟨fun s hs => ?_, fun b hb => ?_, fun hs hb => ?_⟩
  · simp [generateFormRequestData, hs]
  · simp [generateFormRequestData, hb]
  · obtain ⟨method, path, data, format⟩ := cr
    cases data with
    | str s => exact absurd rfl (hs s)
    | bytes b => exact absurd rfl (hb b)
    | null => rfl
    | json j => rfl
    | upload uo => rfl

/-- Witness for C8: a pre-encoded string payload passes through; a JSON
payload shape fails with the sentinel error. -/
theorem formEncoder_passthrough_or_sentinel_witness :
    generateFormRequestData
        { method := "POST", path := "/v1/tokens", format := formatForm, data := .str "a=b" } =
      .ok ("a=b", "application/x-www-form-urlencoded") ∧
    generateFormRequestData
        { method := "POST", path := "/v1/tokens", format := formatForm, data := .null } =
      .error ⟨"Invalid data passed for form request", defaultCode⟩ :=
  ⟨(formEncoder_passthrough_or_sentinel _).1 "a=b" rfl,
    (formEncoder_passthrough_or_sentinel _).2.2 (fun _ h => by cases h) (fun _ h => by cases h)⟩

/-- **C10**: `NewClientWithAccessToken` sets only the access token, the
default host and the file opener — its timeout is the zero duration, its
transport `nil`, its application credentials empty — while `NewClient` sets
the 5-second default timeout and the default transport. -/
theorem clientConstructors_fields (t id secret : String) :
    (NewClientWithAccessToken t).AccessToken = t ∧
    (NewClientWithAccessToken t).Host = host ∧
    (NewClientWithAccessToken t).fs = FSRef.osFS ∧
    (NewClientWithAccessToken t).Timeout = 0 ∧
    (NewClientWithAccessToken t).Transport = none ∧
    (NewClientWithAccessToken t).ApplicationID = "" ∧
    (NewClientWithAccessToken t).ApplicationSecret = "" ∧
    (NewClient id secret).Timeout = defaultTimeout ∧
    defaultTimeout = 5 * 1000000000 ∧
    (NewClient id secret).Transport = some TransportRef.defaultTransport ∧
    (NewClient id secret).Host = host ∧
    (NewClient id secret).fs = FSRef.osFS ∧
    (NewClient id secret).AccessToken = "" :=
  ⟨rfl, rfl, rfl, rfl, rfl, rfl, rfl, rfl, rfl, rfl, rfl, rfl, rfl⟩

/-- **C2**: in the response normalizer, with a non-2xx status and a
successfully parsed envelope, the error branch panics (indexes out of
bounds) exactly when the envelope's error sequence is empty — it is safe
precisely under the precondition that the sequence is non-empty. -/
theorem errorBranch_oob_iff_empty {α : Type} (decode : Json → Except String α)
    (j : Json) (env : Envelope) (code : Int)
    (henv : envelopeOfJson j = .ok env) (hcode : ¬(200 ≤ code ∧ code < 300)) :
    parseResponse decode (.parsed j) code = none ↔ env.Errors = [] := by
  simp only [parseResponse, henv, if_neg hcode]
  cases env.Errors <;> simp

/-- Witness for C2: status 400 with `{"errors": []}` panics (`none`);
adding one error entry makes the branch safe. -/
theorem errorBranch_oob_iff_empty_witness :
    parseResponse (fun j => Except.ok j) (.parsed (.obj [("errors", .arr [])])) 400 = none ∧
    ¬parseResponse (fun j => Except.ok j)
        (.parsed (.obj [("errors",
          .arr [.obj [("message", .str "bad"), ("code", .num 400)]])])) 400 = none :=
  ⟨(errorBranch_oob_iff_empty (fun j => Except.ok j) (.obj [("errors", .arr [])])
      ⟨.null, []⟩ 400 (by rfl) (by decide)).mpr rfl,
    fun h => by
      have := (errorBranch_oob_iff_empty (fun j => Except.ok j)
        (.obj [("errors", .arr [.obj [("message", .str "bad"), ("code", .num 400)]])])
        ⟨.null, [⟨"bad", 400⟩]⟩ 400 (by rfl) (by decide)).mp h
      exact absurd this (by decide)⟩

/-- **C3**: with a 2xx status and a parsed envelope, the normalizer decodes
the envelope's `data` field into the target type when it is non-null
(re-marshal then unmarshal — the identity on parsed values) and decodes the
original raw bytes when it is absent; a deserialization failure surfaces
as the plain decode error (`GoErr.jsonDecode`), not wrapped in the
library's `Error`. -/
theorem successBranch_double_unwrap {α : Type} (decode : Json → Except String α)
    (j : Json) (env : Envelope) (code : Int)
    (henv : envelopeOfJson j = .ok env) (h1 : 200 ≤ code) (h2 : code < 300) :
    parseResponse decode (.parsed j) code =
      some (match decode (if env.Data.isNull then j else env.Data) with
        | .ok a => .ok a
        | .error msg => .error (GoErr.jsonDecode msg)) := by
  simp only [parseResponse, henv, if_pos (And.intro h1 h2)]

/-- Witness for C3: a wrapped `{"data": {"url": "u"}}` at status 200 decodes
the unwrapped payload into `Image`. -/
theorem successBranch_double_unwrap_witness :
    parseResponse imageOfJson (.parsed (.obj [("data", .obj [("url", .str "u")])])) 200 =
      some (.ok ⟨"u", ""⟩) :=
  (successBranch_double_unwrap imageOfJson (.obj [("data", .obj [("url", .str "u")])])
    ⟨.obj [("url", .str "u")], []⟩ 200 (by rfl) (by decide) (by decide)).trans rfl

/-- **C4**: with a non-2xx status and a parsed envelope carrying a
non-empty error sequence, the normalizer returns the library `Error` built
from the first entry's message and code; all later entries are discarded
(the result does not depend on `rest`). -/
theorem errorBranch_first_entry {α : Type} (decode : Json → Except String α)
    (j : Json) (env : Envelope) (code : Int) (e : Error) (rest : List Error)
    (henv : envelopeOfJson j = .ok env) (herrs : env.Errors = e :: rest)
    (hcode : ¬(200 ≤ code ∧ code < 300)) :
    parseResponse decode (.parsed j) code = some (.error (.api ⟨e.Message, e.Code⟩)) := by
  simp only [parseResponse, henv, if_neg hcode, herrs]

/-- Witness for C4: `{"errors":[{"message":"bad","code":400},
{"message":"other","code":500}]}` at status 400 yields `Error{"bad", 400}`,
discarding the second entry. -/
theorem errorBranch_first_entry_witness :
    parseResponse (fun j => Except.ok j)
        (.parsed (.obj [("errors", .arr
          [.obj [("message", .str "bad"), ("code", .num 400)],
           .obj [("message", .str "other"), ("code", .num 500)]])])) 400 =
      some (.error (.api ⟨"bad", 400⟩)) :=
  errorBranch_first_entry (fun j => Except.ok j)
    (.obj [("errors", .arr
      [.obj [("message", .str "bad"), ("code", .num 400)],
       .obj [("message", .str "other"), ("code", .num 500)]])])
    ⟨.null, [⟨"bad", 400⟩, ⟨"other", 500⟩]⟩
    400 ⟨"bad", 400⟩ [⟨"other", 500⟩] (by rfl) rfl (by decide)

/-- **C7**: across the pipeline operations, the bearer-token field is the
only client field an operation can mutate, and only the internal
token-exchange routine mutates it: every non-token-exchange operation
(profile fetch, publication listing, contributor listing, post creation,
image upload) returns the client unchanged, and `acquireAccessToken`
preserves every field other than `AccessToken`. -/
theorem bearer_only_mutation (w : World) (m : Medium) :
    (∀ userID, (m.GetUser w userID).1 = m) ∧
    (∀ userID, (m.GetUserPublications w userID).1 = m) ∧
    (∀ publicationID, (m.GetPublicationContributors w publicationID).1 = m) ∧
    (∀ o, (m.CreatePost w o).1 = m) ∧
    (∀ o, (m.UploadImage w o).1 = m) ∧
    (∀ v, (m.acquireAccessToken w v).1.ApplicationID = m.ApplicationID ∧
      (m.acquireAccessToken w v).1.ApplicationSecret = m.ApplicationSecret ∧
      (m.acquireAccessToken w v).1.Host = m.Host ∧
      (m.acquireAccessToken w v).1.Timeout = m.Timeout ∧
      (m.acquireAccessToken w v).1.Transport = m.Transport ∧
      (m.acquireAccessToken w v).1.fs = m.fs) := by
  refine ⟨fun _ => rfl, fun _ => rfl, fun _ => rfl, fun _ => rfl, fun _ => rfl, fun v => ?_⟩
  cases hr : m.request w accessTokenOfJson
      { method := "POST", path := "/v1/tokens", format := formatForm,
        data := .str (urlValuesEncodeStr v) } with
  | none => simp [Medium.acquireAccessToken, hr]
  | some r =>
    cases r with
    | ok t => simp [Medium.acquireAccessToken, hr]
    | error e => simp [Medium.acquireAccessToken, hr]

/-- Network oracle under which the token endpoint grants a token whose
bearer value is `tok2`. -/
def c1SuccessWorld : World :=
  { net := fun _ _ _ => .response 200 (.parsed (.obj
      [("token_type", .str "Bearer"), ("access_token", .str "tok2"),
        ("refresh_token", .str "ref2"), ("scope", .arr [.str "basicProfile"]),
        ("expires_at", .num 1)]))
    fsOpen := fun _ _ => .failOpen "unused"
    boundary := "b" }

/-- Network oracle under which the token endpoint reports a 400 with one
API error. -/
def c1FailureWorld : World :=
  { net := fun _ _ _ => .response 400 (.parsed (.obj
      [("errors", .arr [.obj [("message", .str "bad"), ("code", .num 400)]])]))
    fsOpen := fun _ _ => .failOpen "unused"
    boundary := "b" }

/-- A client that already stores the bearer token `old`. -/
def c1Client : Medium := { NewClient "id" "secret" with AccessToken := "old" }

/-- **C1**: concrete evaluation of the two `acquireAccessToken` variants on
the same refresh-token exchange.  The current routine (medium.go, guard
`err == nil`) stores the granted bearer `tok2` on success and leaves `old`
in place on failure, exactly as the claim states.  The historical variant
(part_002, guard `err != nil`) violates the claim on both sides: a
successful exchange (last conjunct: it returns the granted token) leaves
the stored bearer at `old`, and a failed exchange overwrites the stored
bearer with the zero value `""`. -/
theorem acquireAccessToken_variants_divergence :
    (c1Client.acquireAccessToken c1SuccessWorld
      (refreshTokenValues "r" "id" "secret")).1.AccessToken = "tok2" ∧
    (c1Client.acquireAccessToken c1FailureWorld
      (refreshTokenValues "r" "id" "secret")).1.AccessToken = "old" ∧
    (c1Client.acquireAccessTokenLegacy c1SuccessWorld
      (refreshTokenValues "r" "id" "secret")).1.AccessToken = "old" ∧
    (c1Client.acquireAccessTokenLegacy c1FailureWorld
      (refreshTokenValues "r" "id" "secret")).1.AccessToken = "" ∧
    (c1Client.acquireAccessTokenLegacy c1SuccessWorld
      (refreshTokenValues "r" "id" "secret")).2 =
      some (.ok ⟨"Bearer", "tok2", "ref2", ["basicProfile"], 1⟩) :=
  ⟨rfl, rfl, rfl, rfl, rfl⟩

/-! ### C6: the form body of the refresh-token exchange round-trips -/

/-- `%XX` escapes decode back to the digit they encode. -/
theorem unhex_hexDigitUpper : ∀ d, d < 16 → unhexDigit (hexDigitUpper d) = some d := by
  decide

/-- Every byte emitted by the query escaper is ASCII and is none of `&`,
`;`, `=`. -/
theorem queryEscapeByte_bytes :
    ∀ b, b < 256 → ∀ x ∈ queryEscapeByte b, x < 127 ∧ x ≠ 38 ∧ x ≠ 59 ∧ x ≠ 61 := by
  decide

/-- Unreserved bytes are neither `+` nor `%`. -/
theorem isUnreservedQuery_ne : ∀ b, b < 256 → isUnreservedQuery b = true → b ≠ 43 ∧ b ≠ 37 := by
  decide

/-- Unescaping consumes one escaped byte and continues. -/
theorem unescape_escapeByte (b : Nat) (hb : b < 256) (r : List Nat) :
    queryUnescapeBytes (queryEscapeByte b ++ r) =
      (queryUnescapeBytes r).map (fun l => b :: l) := by
  by_cases hu : isUnreservedQuery b = true
  · obtain ⟨h43, h37⟩ := isUnreservedQuery_ne b hb hu
    have h1 : queryEscapeByte b = [b] := by simp [queryEscapeByte, hu]
    rw [h1, List.cons_append, List.nil_append, queryUnescapeBytes.eq_def]
    simp only [if_neg h43, if_neg h37]
  · by_cases h32 : b = 32
    · subst h32
      have h1 : queryEscapeByte 32 = [43] := by decide
      rw [h1, List.cons_append, List.nil_append, queryUnescapeBytes.eq_def]
      simp
    · have hdiv : b / 16 < 16 := by omega
      have hmod : b % 16 < 16 := by omega
      have h1 : queryEscapeByte b = [37, hexDigitUpper (b / 16), hexDigitUpper (b % 16)] := by
        simp [queryEscapeByte, hu, h32]
      rw [h1]
      simp only [List.cons_append, List.nil_append]
      rw [queryUnescapeBytes.eq_def]
      simp [unhex_hexDigitUpper _ hdiv, unhex_hexDigitUpper _ hmod, Nat.div_add_mod]

/-- Unescaping an escaped byte string recovers it, whatever follows. -/
theorem unescape_escape (s : List Nat) (h : ∀ b ∈ s, b < 256) (r : List Nat) :
    queryUnescapeBytes (queryEscapeBytes s ++ r) =
      (queryUnescapeBytes r).map (fun l => s ++ l) := by
  induction s with
  | nil =>
    simp only [queryEscapeBytes, List.nil_append]
    cases hr : queryUnescapeBytes r <;> simp [hr, Except.map]
  | cons b bs ih =>
    have hb : b < 256 := h b (List.mem_cons_self b bs)
    have hbs : ∀ x ∈ bs, x < 256 := fun x hx => h x (List.mem_cons_of_mem b hx)
    simp only [queryEscapeBytes, List.append_assoc]
    rw [unescape_escapeByte b hb, ih hbs]
    cases hr : queryUnescapeBytes r <;> simp [hr, Except.map]

/-- `QueryUnescape ∘ QueryEscape` is the identity on byte strings. -/
theorem unescape_escape_nil (s : List Nat) (h : ∀ b ∈ s, b < 256) :
    queryUnescapeBytes (queryEscapeBytes s) = .ok s := by
  have h1 := unescape_escape s h []
  simpa [queryUnescapeBytes, Except.map] using h1

/-- Escaped byte strings contain no `&`, `;` or `=`. -/
theorem escape_no_delims (s : List Nat) (h : ∀ b ∈ s, b < 256) :
    ∀ x ∈ queryEscapeBytes s, x ≠ 38 ∧ x ≠ 59 ∧ x ≠ 61 := by
  induction s with
  | nil => intro x hx; cases hx
  | cons b bs ih =>
    intro x hx
    rcases List.mem_append.1 hx with hx1 | hx2
    · have := queryEscapeByte_bytes b (h b (List.mem_cons_self b bs)) x hx1
      exact ⟨this.2.1, this.2.2⟩
    · exact ih (fun y hy => h y (List.mem_cons_of_mem b hy)) x hx2

/-- One `k=v` chunk is never empty. -/
theorem encodePair_ne_nil (k v : List Nat) : encodePair k v ≠ [] := by
  simp [encodePair]

/-- One `k=v` chunk contains neither `&` nor `;`. -/
theorem encodePair_no_amp_semi (k v : List Nat)
    (hk : ∀ b ∈ k, b < 256) (hv : ∀ b ∈ v, b < 256) :
    ∀ x ∈ encodePair k v, x ≠ 38 ∧ x ≠ 59 := by
  intro x hx
  rcases List.mem_append.1 hx with hx1 | hx2
  · have := escape_no_delims k hk x hx1
    exact ⟨this.1, this.2.1⟩
  · rcases List.mem_cons.1 hx2 with h61 | hx3
    · subst h61; exact ⟨by decide, by decide⟩
    · have := escape_no_delims v hv x hx3
      exact ⟨this.1, this.2.1⟩

/-- Splitting a separator-free byte string is the identity. -/
theorem splitOnByte_no_sep (sep : Nat) (xs : List Nat) (h : ∀ b ∈ xs, b ≠ sep) :
    splitOnByte sep xs = [xs] := by
  induction xs with
  | nil => rfl
  | cons b bs ih =>
    have hb : b ≠ sep := h b (List.mem_cons_self b bs)
    simp only [splitOnByte, if_neg hb,
      ih (fun y hy => h y (List.mem_cons_of_mem b hy))]

/-- Splitting peels a separator-free prefix before the first separator. -/
theorem splitOnByte_append (sep : Nat) (xs ys : List Nat) (h : ∀ b ∈ xs, b ≠ sep) :
    splitOnByte sep (xs ++ sep :: ys) = xs :: splitOnByte sep ys := by
  induction xs with
  | nil => simp [splitOnByte]
  | cons b bs ih =>
    have hb : b ≠ sep := h b (List.mem_cons_self b bs)
    simp only [List.cons_append, splitOnByte, if_neg hb, List.append_eq,
      ih (fun y hy => h y (List.mem_cons_of_mem b hy))]

/-- `strings.Cut` at the first separator, when the prefix is
separator-free. -/
theorem cutByte_append (sep : Nat) (xs ys : List Nat) (h : ∀ b ∈ xs, b ≠ sep) :
    cutByte sep (xs ++ sep :: ys) = (xs, ys) := by
  induction xs with
  | nil => simp [cutByte]
  | cons b bs ih =>
    have hb : b ≠ sep := h b (List.mem_cons_self b bs)
    simp only [List.cons_append, cutByte, if_neg hb, List.append_eq,
      ih (fun y hy => h y (List.mem_cons_of_mem b hy))]

/-- One parse step on one `k=v` chunk of an encoded query: the chunk passes
the semicolon and emptiness checks, cuts at the `=`, unescapes both halves
back to `k` and `v`, and appends to the value map without flagging an
error. -/
theorem parseQuerySeg_chunk (m : ValuesB) (k v : List Nat)
    (hk : ∀ b ∈ k, b < 256) (hv : ∀ b ∈ v, b < 256) :
    parseQuerySeg (m, false) (encodePair k v) = (valuesAdd m k v, false) := by
  have h59 : ¬(59 ∈ encodePair k v) := by
    intro hmem
    exact absurd rfl (encodePair_no_amp_semi k v hk hv 59 hmem).2
  have hne : ¬(encodePair k v = []) := encodePair_ne_nil k v
  have hcut : cutByte 61 (encodePair k v) = (queryEscapeBytes k, queryEscapeBytes v) :=
    cutByte_append 61 _ _ (fun b hb => (escape_no_delims k hk b hb).2.2)
  simp only [parseQuerySeg, if_neg h59, if_neg hne, hcut,
    unescape_escape_nil k hk, unescape_escape_nil v hv]

/-- **C6**: `ExchangeRefreshToken` funnels exactly the parameter set
`{refresh_token, client_id, client_secret, grant_type=refresh_token}` into
the token routine (first conjunct); the form body it sends is the
URL-encoding of that parameter set (second conjunct, definitional); and
decoding that body with `url.ParseQuery` recovers exactly those four
parameters, error-free (third conjunct).  The ASCII hypotheses pin the
byte-level model of Go strings to Lean strings. -/
theorem exchangeRefreshToken_body_roundtrip (rt cid cs : String)
    (hrt : ∀ c ∈ rt.toList, c.toNat < 128)
    (hcid : ∀ c ∈ cid.toList, c.toNat < 128)
    (hcs : ∀ c ∈ cs.toList, c.toNat < 128) :
    (∀ (w : World) (m : Medium), m.ExchangeRefreshToken w rt =
        m.acquireAccessToken w (refreshTokenValues rt m.ApplicationID m.ApplicationSecret)) ∧
    urlValuesEncodeStr (refreshTokenValues rt cid cs) =
      bytesStr (urlValuesEncode (valuesToBytes (refreshTokenValues rt cid cs))) ∧
    parseQueryBytes (urlValuesEncode (valuesToBytes (refreshTokenValues rt cid cs))) =
      ([(strBytes "client_id", [strBytes cid]),
        (strBytes "client_secret", [strBytes cs]),
        (strBytes "grant_type", [strBytes "refresh_token"]),
        (strBytes "refresh_token", [strBytes rt])], false) := by
  refine ⟨fun w m => rfl, rfl, ?_⟩
  have hb256 : ∀ (s : String), (∀ c ∈ s.toList, c.toNat < 128) →
      ∀ b ∈ strBytes s, b < 256 := by
    intro s hs b hb
    rcases List.mem_map.1 hb with ⟨c, hc, rfl⟩
    exact Nat.lt_trans (hs c hc) (by norm_num)
  have hrtB := hb256 rt hrt
  have hcidB := hb256 cid hcid
  have hcsB := hb256 cs hcs
  have hKci : ∀ b ∈ strBytes "client_id", b < 256 := by decide
  have hKcs : ∀ b ∈ strBytes "client_secret", b < 256 := by decide
  have hKgt : ∀ b ∈ strBytes "grant_type", b < 256 := by decide
  have hKrt : ∀ b ∈ strBytes "refresh_token", b < 256 := by decide
  have hVgt : ∀ b ∈ strBytes "refresh_token", b < 256 := hKrt
  have henc : urlValuesEncode (valuesToBytes (refreshTokenValues rt cid cs)) =
      encodePair (strBytes "client_id") (strBytes cid) ++ 38 ::
        (encodePair (strBytes "client_secret") (strBytes cs) ++ 38 ::
          (encodePair (strBytes "grant_type") (strBytes "refresh_token") ++ 38 ::
            encodePair (strBytes "refresh_token") (strBytes rt))) := rfl
  have hno38 : ∀ (k v : List Nat), (∀ b ∈ k, b < 256) → (∀ b ∈ v, b < 256) →
      ∀ x ∈ encodePair k v, x ≠ 38 :=
    fun k v hk hv x hx => (encodePair_no_amp_semi k v hk hv x hx).1
  have hsplit : splitOnByte 38 (urlValuesEncode (valuesToBytes (refreshTokenValues rt cid cs))) =
      [encodePair (strBytes "client_id") (strBytes cid),
        encodePair (strBytes "client_secret") (strBytes cs),
        encodePair (strBytes "grant_type") (strBytes "refresh_token"),
        encodePair (strBytes "refresh_token") (strBytes rt)] := by
    rw [henc,
      splitOnByte_append 38 _ _ (hno38 _ _ hKci hcidB),
      splitOnByte_append 38 _ _ (hno38 _ _ hKcs hcsB),
      splitOnByte_append 38 _ _ (hno38 _ _ hKgt hVgt),
      splitOnByte_no_sep 38 _ (hno38 _ _ hKrt hrtB)]
  simp only [parseQueryBytes, hsplit, List.foldl]
  rw [parseQuerySeg_chunk _ _ _ hKci hcidB,
    parseQuerySeg_chunk _ _ _ hKcs hcsB,
    parseQuerySeg_chunk _ _ _ hKgt hVgt,
    parseQuerySeg_chunk _ _ _ hKrt hrtB]
  rfl

/-- Witness for C6 at a refresh token that needs escaping (`r/t k` carries a
slash and a space): decoding the encoded body recovers the exact parameter
set with no error flagged. -/
theorem exchangeRefreshToken_body_roundtrip_witness :
    parseQueryBytes (urlValuesEncode (valuesToBytes (refreshTokenValues "r/t k" "id" "sec"))) =
      ([(strBytes "client_id", [strBytes "id"]),
        (strBytes "client_secret", [strBytes "sec"]),
        (strBytes "grant_type", [strBytes "refresh_token"]),
        (strBytes "refresh_token", [strBytes "r/t k"])], false) :=
  (exchangeRefreshToken_body_roundtrip "r/t k" "id" "sec"
    (by decide) (by decide) (by decide)).2.2

end MediumGo
